import Mathlib

/-!
Verification of the rotation-sequence / direction-cosine-matrix notebook.

The notebook's core functions are shallowly embedded here:

* `create_rotation_matrix` — the numeric Elementary Rotation Builder.
  NumPy floating-point scalars are idealised as elements of a commutative
  ring, with the trigonometric functions `cos` and `sin` passed in as
  function parameters (instantiated with `Real.cos` / `Real.sin` in the
  theorems).  A Python `raise ValueError(msg)` is modelled as
  `Except.error msg`.
* `angle_map`, `create_symbolic_rotation`, `lookup_angles`,
  `get_symbolic_dcm` — the symbolic pipeline.  A SymPy symbol is one of
  the three fixed symbols `phi`, `theta`, `psi` (type `SymAngle`); a
  symbolic trigonometric expression is represented by its value under a
  valuation `σ : SymAngle → α` assigning a scalar to each symbol, and a
  symbolic identity is an equality holding for every valuation.  The
  Python dict lookup `angle_map[axis]` raises `KeyError` on a missing
  key, modelled as `Except.error`; the nested builder
  `create_symbolic_rotation` has no `else` branch in the source, so for
  an invalid axis Python returns `None`, modelled as `Option.none`
  (a normally returned value, not an error).
* `euler_to_dcm` — the numeric Sequence Composer (`np.eye(3)` is the
  identity matrix `1`; the `for`/`zip` loop is the recursion `dcmLoop`).
* `invert` — the inverse-via-transpose utility
  (`dcm_inverse = dcm.transpose()` in `display_symbolic_dcm`).

`build` is the spec-side Elementary Rotation Builder, written from the
specification's convention table, used to state refinement claims about
the code-side functions.
-/

namespace RotationSeq

variable {α : Type} [CommRing α]

/-- Numeric Elementary Rotation Builder, from `create_rotation_matrix` in
the notebook: branches on the integer axis code and returns the 3×3
rotation matrix, raising `ValueError` for an axis outside 1,2,3. -/
def create_rotation_matrix (cos sin : α → α) (axis : ℕ) (angle : α) :
    Except String (Matrix (Fin 3) (Fin 3) α) :=
  let c := cos angle
  let s := sin angle
  if axis = 1 then
    Except.ok !![1, 0, 0; 0, c, -s; 0, s, c]
  else if axis = 2 then
    Except.ok !![c, 0, s; 0, 1, 0; -s, 0, c]
  else if axis = 3 then
    Except.ok !![c, -s, 0; s, c, 0; 0, 0, 1]
  else
    Except.error "Axis must be 1, 2, or 3"

/-- The three SymPy symbols created by `get_symbolic_dcm`. -/
inductive SymAngle : Type
  | phi
  | theta
  | psi
deriving DecidableEq

/-- The dict `angle_map = {1: phi, 2: theta, 3: psi}`; looking up a key
outside 1,2,3 raises `KeyError`. -/
def angle_map (axis : ℕ) : Except String SymAngle :=
  if axis = 1 then Except.ok SymAngle.phi
  else if axis = 2 then Except.ok SymAngle.theta
  else if axis = 3 then Except.ok SymAngle.psi
  else Except.error "KeyError"

/-- The list comprehension `[angle_map[axis] for axis in sequence]`:
the first invalid axis raises `KeyError`. -/
def lookup_angles : List ℕ → Except String (List SymAngle)
  | [] => Except.ok []
  | axis :: rest =>
    match angle_map axis with
    | Except.ok s => (lookup_angles rest).map (fun l => s :: l)
    | Except.error e => Except.error e

/-- Symbolic Elementary Rotation Builder, the function nested inside
`get_symbolic_dcm`.  It has no `else` branch in the source: for an axis
outside 1,2,3 Python falls through and returns `None`, modelled as
`none` (a value, not a raised error). -/
def create_symbolic_rotation (cos sin : α → α) (axis : ℕ) (angle : α) :
    Option (Matrix (Fin 3) (Fin 3) α) :=
  let c := cos angle
  let s := sin angle
  if axis = 1 then
    some !![1, 0, 0; 0, c, -s; 0, s, c]
  else if axis = 2 then
    some !![c, 0, s; 0, 1, 0; -s, 0, c]
  else if axis = 3 then
    some !![c, -s, 0; s, c, 0; 0, 0, 1]
  else
    none

/-- The `for axis, angle in zip(...)` accumulation loop shared by the two
composers: starting from `dcm`, right-multiply by each elementary
rotation in order.  Used by `euler_to_dcm`. -/
def dcmLoop (cos sin : α → α) :
    Matrix (Fin 3) (Fin 3) α → List (ℕ × α) →
      Except String (Matrix (Fin 3) (Fin 3) α)
  | dcm, [] => Except.ok dcm
  | dcm, (axis, angle) :: rest =>
    match create_rotation_matrix cos sin axis angle with
    | Except.ok r => dcmLoop cos sin (dcm * r) rest
    | Except.error e => Except.error e

/-- The accumulation loop of `get_symbolic_dcm`: `dcm = dcm * rot_matrix`.
If `create_symbolic_rotation` returned `None`, the multiplication
`dcm * None` would raise `TypeError` in Python (unreachable in the
pipeline, since the `angle_map` lookup rejects invalid axes first). -/
def symLoop (cos sin : α → α) :
    Matrix (Fin 3) (Fin 3) α → List (ℕ × α) →
      Except String (Matrix (Fin 3) (Fin 3) α)
  | dcm, [] => Except.ok dcm
  | dcm, (axis, angle) :: rest =>
    match create_symbolic_rotation cos sin axis angle with
    | some r => symLoop cos sin (dcm * r) rest
    | none => Except.error "TypeError"

/-- Numeric Sequence Composer, from `euler_to_dcm` in the notebook:
checks the two lengths, then folds `np.dot` over the zipped pairs
starting from `np.eye(3)`. -/
def euler_to_dcm (cos sin : α → α) (sequence : List ℕ) (angles : List α) :
    Except String (Matrix (Fin 3) (Fin 3) α) :=
  if sequence.length ≠ angles.length then
    Except.error "Number of axes must match number of angles"
  else
    dcmLoop cos sin 1 (sequence.zip angles)

/-- Symbolic Sequence Composer, from `get_symbolic_dcm` in the notebook:
derives one symbol per axis via `angle_map` (raising `KeyError` on an
invalid axis), then folds the symbolic rotations starting from
`sp.eye(3)`.  The valuation `σ` interprets the three symbols. -/
def get_symbolic_dcm (cos sin : α → α) (sequence : List ℕ)
    (σ : SymAngle → α) : Except String (Matrix (Fin 3) (Fin 3) α) :=
  match lookup_angles sequence with
  | Except.error e => Except.error e
  | Except.ok syms => symLoop cos sin 1 (sequence.zip (syms.map σ))

/-- Inverse-via-transpose utility, from `dcm_inverse = dcm.transpose()`
in `display_symbolic_dcm`: no explicit matrix inversion is performed. -/
def invert (m : Matrix (Fin 3) (Fin 3) α) : Matrix (Fin 3) (Fin 3) α :=
  m.transpose

/-- Spec-side Elementary Rotation Builder, written from the convention
table of the specification (section 4.1): axis 1 fixes row/col 1 with the
standard 2D rotation in rows/cols 2,3; axis 2 uses the transposed sign
pattern in rows/cols 1,3; axis 3 fixes row/col 3.  Total function; the
value at an invalid axis (identity) is never used under the claims'
hypotheses. -/
def build (cos sin : α → α) (axis : ℕ) (angle : α) :
    Matrix (Fin 3) (Fin 3) α :=
  if axis = 1 then
    !![1, 0, 0; 0, cos angle, -sin angle; 0, sin angle, cos angle]
  else if axis = 2 then
    !![cos angle, 0, sin angle; 0, 1, 0; -sin angle, 0, cos angle]
  else if axis = 3 then
    !![cos angle, -sin angle, 0; sin angle, cos angle, 0; 0, 0, 1]
  else
    1

/-- Spec-side fixed axis-to-symbol mapping 1 ↦ phi, 2 ↦ theta, 3 ↦ psi
(total restriction of `angle_map`, used to state claims). -/
def symbolOf (axis : ℕ) : SymAngle :=
  if axis = 1 then SymAngle.phi
  else if axis = 2 then SymAngle.theta
  else SymAngle.psi

/-- A concrete valuation of the symbols (all zero), for witnesses. -/
def sigma0 : SymAngle → ℝ := fun _ => 0

/-- A concrete non-degenerate valuation of the symbols, for witnesses. -/
def sigmaDemo : SymAngle → ℝ := fun s =>
  match s with
  | SymAngle.phi => 1
  | SymAngle.theta => 2
  | SymAngle.psi => 3

/-! ### Helper lemmas -/

theorem create_rotation_matrix_eq_build (cos sin : α → α) {axis : ℕ}
    (h : axis = 1 ∨ axis = 2 ∨ axis = 3) (angle : α) :
    create_rotation_matrix cos sin axis angle =
      Except.ok (build cos sin axis angle) := by
  rcases h with h | h | h <;> subst h <;> rfl

theorem create_symbolic_rotation_eq_build (cos sin : α → α) {axis : ℕ}
    (h : axis = 1 ∨ axis = 2 ∨ axis = 3) (angle : α) :
    create_symbolic_rotation cos sin axis angle =
      some (build cos sin axis angle) := by
  rcases h with h | h | h <;> subst h <;> rfl

theorem create_rotation_matrix_invalid (cos sin : α → α) {axis : ℕ}
    (h : ¬(axis = 1 ∨ axis = 2 ∨ axis = 3)) (angle : α) :
    create_rotation_matrix cos sin axis angle =
      Except.error "Axis must be 1, 2, or 3" := by
  push_neg at h
  simp [create_rotation_matrix, h.1, h.2.1, h.2.2]

theorem create_symbolic_rotation_invalid (cos sin : α → α) {axis : ℕ}
    (h : ¬(axis = 1 ∨ axis = 2 ∨ axis = 3)) (angle : α) :
    create_symbolic_rotation cos sin axis angle = none := by
  push_neg at h
  simp [create_symbolic_rotation, h.1, h.2.1, h.2.2]

theorem angle_map_invalid {axis : ℕ}
    (h : ¬(axis = 1 ∨ axis = 2 ∨ axis = 3)) :
    angle_map axis = Except.error "KeyError" := by
  push_neg at h
  simp [angle_map, h.1, h.2.1, h.2.2]

theorem dcmLoop_eq_ok (cos sin : α → α) (pairs : List (ℕ × α))
    (hax : ∀ p ∈ pairs, p.1 = 1 ∨ p.1 = 2 ∨ p.1 = 3) :
    ∀ init, dcmLoop cos sin init pairs =
      Except.ok (init * (pairs.map (fun p => build cos sin p.1 p.2)).prod) := by
  induction pairs with
  | nil => intro init; simp [dcmLoop]
  | cons p rest ih =>
    intro init
    obtain ⟨a, t⟩ := p
    have ha := hax (a, t) (List.mem_cons_self _ _)
    rw [dcmLoop, create_rotation_matrix_eq_build cos sin ha]
    simp only [ih (fun q hq => hax q (List.mem_cons_of_mem _ hq)),
      List.map_cons, List.prod_cons, mul_assoc]

theorem symLoop_eq_ok (cos sin : α → α) (pairs : List (ℕ × α))
    (hax : ∀ p ∈ pairs, p.1 = 1 ∨ p.1 = 2 ∨ p.1 = 3) :
    ∀ init, symLoop cos sin init pairs =
      Except.ok (init * (pairs.map (fun p => build cos sin p.1 p.2)).prod) := by
  induction pairs with
  | nil => intro init; simp [symLoop]
  | cons p rest ih =>
    intro init
    obtain ⟨a, t⟩ := p
    have ha := hax (a, t) (List.mem_cons_self _ _)
    rw [symLoop, create_symbolic_rotation_eq_build cos sin ha]
    simp only [ih (fun q hq => hax q (List.mem_cons_of_mem _ hq)),
      List.map_cons, List.prod_cons, mul_assoc]

theorem dcmLoop_ok_valid (cos sin : α → α) :
    ∀ (pairs : List (ℕ × α)) (init M),
      dcmLoop cos sin init pairs = Except.ok M →
        ∀ p ∈ pairs, p.1 = 1 ∨ p.1 = 2 ∨ p.1 = 3 := by
  intro pairs
  induction pairs with
  | nil => intro _ _ _ p hp; cases hp
  | cons q rest ih =>
    intro init M hM p hp
    obtain ⟨a, t⟩ := q
    by_cases ha : a = 1 ∨ a = 2 ∨ a = 3
    · rcases List.mem_cons.mp hp with h | h
      · subst h; exact ha
      · rw [dcmLoop, create_rotation_matrix_eq_build cos sin ha] at hM
        exact ih _ _ hM p h
    · rw [dcmLoop, create_rotation_matrix_invalid cos sin ha] at hM
      cases hM

theorem symLoop_ok_valid (cos sin : α → α) :
    ∀ (pairs : List (ℕ × α)) (init M),
      symLoop cos sin init pairs = Except.ok M →
        ∀ p ∈ pairs, p.1 = 1 ∨ p.1 = 2 ∨ p.1 = 3 := by
  intro pairs
  induction pairs with
  | nil => intro _ _ _ p hp; cases hp
  | cons q rest ih =>
    intro init M hM p hp
    obtain ⟨a, t⟩ := q
    by_cases ha : a = 1 ∨ a = 2 ∨ a = 3
    · rcases List.mem_cons.mp hp with h | h
      · subst h; exact ha
      · rw [symLoop, create_symbolic_rotation_eq_build cos sin ha] at hM
        exact ih _ _ hM p h
    · rw [symLoop, create_symbolic_rotation_invalid cos sin ha] at hM
      cases hM

theorem lookup_angles_eq (sequence : List ℕ)
    (hax : ∀ a ∈ sequence, a = 1 ∨ a = 2 ∨ a = 3) :
    lookup_angles sequence = Except.ok (sequence.map symbolOf) := by
  induction sequence with
  | nil => rfl
  | cons a rest ih =>
    have ha := hax a (List.mem_cons_self _ _)
    have hmap : angle_map a = Except.ok (symbolOf a) := by
      rcases ha with h | h | h <;> subst h <;> rfl
    rw [lookup_angles, hmap, ih (fun b hb => hax b (List.mem_cons_of_mem _ hb))]
    rfl

theorem lookup_angles_ok_valid :
    ∀ (sequence : List ℕ) (syms : List SymAngle),
      lookup_angles sequence = Except.ok syms →
        ∀ a ∈ sequence, a = 1 ∨ a = 2 ∨ a = 3 := by
  intro sequence
  induction sequence with
  | nil => intro _ _ a ha; cases ha
  | cons b rest ih =>
    intro syms h a ha
    by_cases hb : b = 1 ∨ b = 2 ∨ b = 3
    · rcases List.mem_cons.mp ha with h' | h'
      · subst h'; exact hb
      · rw [lookup_angles] at h
        cases hrest : lookup_angles rest with
        | ok l => exact ih l hrest a h'
        | error e =>
          rw [hrest] at h
          rcases hb with hb | hb | hb <;> subst hb <;>
            simp [angle_map, Except.map] at h
    · rw [lookup_angles, angle_map_invalid hb] at h
      cases h

theorem build_mul_transpose_real (a : ℕ) (t : ℝ) :
    build Real.cos Real.sin a t * (build Real.cos Real.sin a t).transpose = 1 := by
  have hs := Real.sin_sq_add_cos_sq t
  unfold build
  split_ifs <;> ext i j <;> fin_cases i <;> fin_cases j <;>
    simp [Matrix.mul_apply, Fin.sum_univ_three, Matrix.transpose_apply,
      Matrix.one_apply, Matrix.vecHead, Matrix.vecTail] <;>
    nlinarith [hs]

theorem build_transpose_neg_real (a : ℕ) (t : ℝ) :
    (build Real.cos Real.sin a t).transpose = build Real.cos Real.sin a (-t) := by
  unfold build
  split_ifs <;> ext i j <;> fin_cases i <;> fin_cases j <;>
    simp [Matrix.transpose_apply, Matrix.one_apply, Matrix.vecHead,
      Matrix.vecTail, Real.cos_neg, Real.sin_neg]

theorem build_zero_real (a : ℕ) : build Real.cos Real.sin a 0 = 1 := by
  unfold build
  split_ifs <;> ext i j <;> fin_cases i <;> fin_cases j <;>
    simp [Matrix.one_apply, Matrix.vecHead, Matrix.vecTail,
      Real.cos_zero, Real.sin_zero]

theorem prod_mul_transpose_prod (l : List (Matrix (Fin 3) (Fin 3) ℝ))
    (h : ∀ m ∈ l, m * m.transpose = 1) :
    l.prod * l.prod.transpose = 1 := by
  induction l with
  | nil => simp
  | cons m rest ih =>
    have hm := h m (List.mem_cons_self _ _)
    have hr := ih (fun x hx => h x (List.mem_cons_of_mem _ hx))
    simp only [List.prod_cons, Matrix.transpose_mul]
    rw [mul_assoc, ← mul_assoc rest.prod, hr, one_mul, hm]

theorem zip_reverse_map (f : ℝ → ℝ) :
    ∀ (sequence : List ℕ) (angles : List ℝ),
      sequence.length = angles.length →
        sequence.reverse.zip ((angles.map f).reverse) =
          ((sequence.zip angles).map (fun p => (p.1, f p.2))).reverse := by
  intro sequence
  induction sequence with
  | nil =>
    intro angles h
    cases angles with
    | nil => rfl
    | cons b bs => cases h
  | cons a as ih =>
    intro angles h
    cases angles with
    | nil => cases h
    | cons b bs =>
      have hlen : as.length = bs.length := by simpa using h
      simp only [List.reverse_cons, List.map_cons, List.zip_cons_cons]
      rw [List.zip_append (by simpa using hlen), ih bs hlen]
      simp

theorem zip_self_map (f : ℕ → ℝ) :
    ∀ l : List ℕ, l.zip (l.map f) = l.map (fun a => (a, f a))
  | [] => rfl
  | a :: rest => by
    simp only [List.map_cons, List.zip_cons_cons, zip_self_map f rest]

theorem map_build_neg_transpose (L : List (ℕ × ℝ)) :
    L.map (fun p => build Real.cos Real.sin p.1 (-p.2)) =
      (L.map (fun p => build Real.cos Real.sin p.1 p.2)).map
        Matrix.transpose := by
  induction L with
  | nil => rfl
  | cons p rest ih => simp [ih, build_transpose_neg_real]

theorem sqrt_two_bounds :
    1.414213562 < Real.sqrt 2 ∧ Real.sqrt 2 < 1.414213563 := by
  have h := Real.sq_sqrt (show (0:ℝ) ≤ 2 by norm_num)
  have hnn := Real.sqrt_nonneg 2
  constructor <;> nlinarith [h, hnn]

theorem sqrt_three_bounds :
    1.732050807 < Real.sqrt 3 ∧ Real.sqrt 3 < 1.732050808 := by
  have h := Real.sq_sqrt (show (0:ℝ) ≤ 3 by norm_num)
  have hnn := Real.sqrt_nonneg 3
  constructor <;> nlinarith [h, hnn]

theorem cos_pi_div_twelve_eq :
    Real.cos (Real.pi / 12) = (Real.sqrt 3 * Real.sqrt 2 + Real.sqrt 2) / 4 := by
  rw [show Real.pi / 12 = Real.pi / 3 - Real.pi / 4 by ring, Real.cos_sub,
    Real.cos_pi_div_three, Real.cos_pi_div_four, Real.sin_pi_div_three,
    Real.sin_pi_div_four]
  ring

theorem sin_pi_div_twelve_eq :
    Real.sin (Real.pi / 12) = (Real.sqrt 3 * Real.sqrt 2 - Real.sqrt 2) / 4 := by
  rw [show Real.pi / 12 = Real.pi / 3 - Real.pi / 4 by ring, Real.sin_sub,
    Real.cos_pi_div_three, Real.cos_pi_div_four, Real.sin_pi_div_three,
    Real.sin_pi_div_four]
  ring

theorem sin_pi_div_eighteen_bounds :
    0.173648177 < Real.sin (Real.pi / 18) ∧
      Real.sin (Real.pi / 18) < 0.173648178 := by
  have h3 := Real.sin_three_mul (Real.pi / 18)
  rw [show 3 * (Real.pi / 18) = Real.pi / 6 by ring, Real.sin_pi_div_six] at h3
  have h0 : 0 ≤ Real.sin (Real.pi / 18) :=
    Real.sin_nonneg_of_nonneg_of_le_pi (by positivity)
      (by linarith [Real.pi_pos])
  have hub : Real.sin (Real.pi / 18) < 0.1746 := by
    have hx := Real.sin_lt (show 0 < Real.pi / 18 by positivity)
    linarith [Real.pi_lt_d6]
  constructor
  · by_contra hc
    push_neg at hc
    have hkey : (0.173648177 - Real.sin (Real.pi / 18)) *
        (3 - 4 * ((0.173648177:ℝ)^2 +
          0.173648177 * Real.sin (Real.pi / 18) +
          Real.sin (Real.pi / 18)^2)) ≥ 0 := by
      apply mul_nonneg (by linarith)
      nlinarith [h0, hc]
    nlinarith [h3, hkey]
  · by_contra hc
    push_neg at hc
    have hkey : (Real.sin (Real.pi / 18) - 0.173648178) *
        (3 - 4 * ((0.173648178:ℝ)^2 +
          0.173648178 * Real.sin (Real.pi / 18) +
          Real.sin (Real.pi / 18)^2)) ≥ 0 := by
      apply mul_nonneg (by linarith)
      nlinarith [hub, hc]
    nlinarith [h3, hkey]

theorem cos_pi_div_eighteen_bounds :
    0.9848077528 < Real.cos (Real.pi / 18) ∧
      Real.cos (Real.pi / 18) < 0.9848077532 := by
  have hpyth := Real.sin_sq_add_cos_sq (Real.pi / 18)
  have hpos : 0 < Real.cos (Real.pi / 18) := by
    refine Real.cos_pos_of_mem_Ioo (Set.mem_Ioo.mpr ⟨?_, ?_⟩)
    · linarith [Real.pi_pos]
    · linarith [Real.pi_pos]
  obtain ⟨hsl, hsu⟩ := sin_pi_div_eighteen_bounds
  constructor <;> nlinarith [hpyth, hpos, hsl, hsu]

theorem c8_entries (θ1 θ2 θ3 : ℝ) :
    (1 : Matrix (Fin 3) (Fin 3) ℝ) * build Real.cos Real.sin 3 θ1 *
      build Real.cos Real.sin 2 θ2 * build Real.cos Real.sin 1 θ3 =
    !![Real.cos θ1 * Real.cos θ2,
       Real.cos θ1 * Real.sin θ2 * Real.sin θ3 - Real.sin θ1 * Real.cos θ3,
       Real.cos θ1 * Real.sin θ2 * Real.cos θ3 + Real.sin θ1 * Real.sin θ3;
       Real.sin θ1 * Real.cos θ2,
       Real.sin θ1 * Real.sin θ2 * Real.sin θ3 + Real.cos θ1 * Real.cos θ3,
       Real.sin θ1 * Real.sin θ2 * Real.cos θ3 - Real.cos θ1 * Real.sin θ3;
       -Real.sin θ2,
       Real.cos θ2 * Real.sin θ3,
       Real.cos θ2 * Real.cos θ3] := by
  rw [one_mul]
  ext i j
  fin_cases i <;> fin_cases j <;>
    simp [build, Matrix.mul_apply, Fin.sum_univ_three, Matrix.vecHead,
      Matrix.vecTail] <;> ring

/-! ### The claims -/

/-- Claim C1: for every angle, the Elementary Rotation Builder (numeric
`create_rotation_matrix` and symbolic `create_symbolic_rotation`) returns
exactly the specified 3×3 matrix for each axis: axis 1 gives
`[[1,0,0],[0,cos,-sin],[0,sin,cos]]`, axis 2 gives
`[[cos,0,sin],[0,1,0],[-sin,0,cos]]`, and axis 3 gives
`[[cos,-sin,0],[sin,cos,0],[0,0,1]]`. -/
theorem C1_elementary_builder (t : ℝ) :
    create_rotation_matrix Real.cos Real.sin 1 t =
      Except.ok !![1, 0, 0; 0, Real.cos t, -Real.sin t; 0, Real.sin t, Real.cos t] ∧
    create_rotation_matrix Real.cos Real.sin 2 t =
      Except.ok !![Real.cos t, 0, Real.sin t; 0, 1, 0; -Real.sin t, 0, Real.cos t] ∧
    create_rotation_matrix Real.cos Real.sin 3 t =
      Except.ok !![Real.cos t, -Real.sin t, 0; Real.sin t, Real.cos t, 0; 0, 0, 1] ∧
    create_symbolic_rotation Real.cos Real.sin 1 t =
      some !![1, 0, 0; 0, Real.cos t, -Real.sin t; 0, Real.sin t, Real.cos t] ∧
    create_symbolic_rotation Real.cos Real.sin 2 t =
      some !![Real.cos t, 0, Real.sin t; 0, 1, 0; -Real.sin t, 0, Real.cos t] ∧
    create_symbolic_rotation Real.cos Real.sin 3 t =
      some !![Real.cos t, -Real.sin t, 0; Real.sin t, Real.cos t, 0; 0, 0, 1] :=
  ⟨rfl, rfl, rfl, rfl, rfl, rfl⟩

/-- Claim C3, counterexample to the claim as stated: invoking the symbolic
Elementary Rotation Builder `create_symbolic_rotation` with axis 4 does
not fail with an InvalidAxis error — the source function has no `else`
branch, so Python returns `None` (modelled as `none`), a normally
returned value. -/
theorem C3_counterexample :
    create_symbolic_rotation Real.cos Real.sin 4 0 = none := rfl

/-- Claim C3 (amended): for every axis identifier outside 1,2,3 and any
angle, the numeric Builder `create_rotation_matrix` fails with the
InvalidAxis error (`ValueError`); the symbolic Builder
`create_symbolic_rotation` returns `None` rather than raising; and the
symbolic pipeline `get_symbolic_dcm` surfaces the invalid axis
immediately as a `KeyError` from the `angle_map` lookup, before the
Builder is reached. -/
theorem C3_invalid_axis (axis : ℕ)
    (h : ¬(axis = 1 ∨ axis = 2 ∨ axis = 3)) (t : ℝ) (σ : SymAngle → ℝ) :
    create_rotation_matrix Real.cos Real.sin axis t =
      Except.error "Axis must be 1, 2, or 3" ∧
    create_symbolic_rotation Real.cos Real.sin axis t = none ∧
    get_symbolic_dcm Real.cos Real.sin [axis] σ =
      Except.error "KeyError" := by
  refine ⟨create_rotation_matrix_invalid Real.cos Real.sin h t,
    create_symbolic_rotation_invalid Real.cos Real.sin h t, ?_⟩
  rw [get_symbolic_dcm, lookup_angles, angle_map_invalid h]

/-- Witness for the amended claim C3 at axis 4. -/
theorem C3_witness :
    ¬((4 : ℕ) = 1 ∨ (4 : ℕ) = 2 ∨ (4 : ℕ) = 3) ∧
    create_rotation_matrix Real.cos Real.sin 4 0 =
      Except.error "Axis must be 1, 2, or 3" ∧
    create_symbolic_rotation Real.cos Real.sin 4 0 = none ∧
    get_symbolic_dcm Real.cos Real.sin [4] sigma0 =
      Except.error "KeyError" :=
  ⟨by decide, C3_invalid_axis 4 (by decide) 0 sigma0⟩

/-- Claim C4: for every pair of input lists whose lengths differ, the
Sequence Composer `euler_to_dcm` fails with the LengthMismatch error
(`ValueError`) and returns no partial result. -/
theorem C4_length_mismatch (sequence : List ℕ) (angles : List ℝ)
    (h : sequence.length ≠ angles.length) :
    euler_to_dcm Real.cos Real.sin sequence angles =
      Except.error "Number of axes must match number of angles" := by
  rw [euler_to_dcm, if_pos h]

/-- Witness for claim C4: 3 axes and 2 angles fail with LengthMismatch. -/
theorem C4_witness :
    ([3, 2, 1] : List ℕ).length ≠ ([0.1, 0.2] : List ℝ).length ∧
    euler_to_dcm Real.cos Real.sin [3, 2, 1] [0.1, 0.2] =
      Except.error "Number of axes must match number of angles" :=
  ⟨by decide, C4_length_mismatch [3, 2, 1] [0.1, 0.2] (by decide)⟩

/-- Claim C9: when both the axis list and the angle list are empty, the
numeric Sequence Composer `euler_to_dcm` does not fail: it returns the
3×3 identity matrix. -/
theorem C9_empty_sequence_identity :
    euler_to_dcm Real.cos Real.sin ([] : List ℕ) ([] : List ℝ) =
      Except.ok 1 := rfl

/-- Claim C2: for every non-empty sequence of (axis, angle) pairs with all
axes in 1,2,3, the Sequence Composer (`euler_to_dcm`, and
`get_symbolic_dcm` with its axis-derived symbolic angles) returns the
matrix obtained by starting from the 3×3 identity and, for each pair in
sequence order, right-multiplying the accumulator by the elementary
rotation matrix built for that pair.  The singleton case reduces to
`1 * build axis angle`, the Builder's output. -/
theorem C2_sequence_composer (sequence : List ℕ) (angles : List ℝ)
    (σ : SymAngle → ℝ) (hne : sequence ≠ [])
    (hlen : sequence.length = angles.length)
    (hax : ∀ a ∈ sequence, a = 1 ∨ a = 2 ∨ a = 3) :
    euler_to_dcm Real.cos Real.sin sequence angles =
      Except.ok ((sequence.zip angles).foldl
        (fun acc p => acc * build Real.cos Real.sin p.1 p.2) 1) ∧
    get_symbolic_dcm Real.cos Real.sin sequence σ =
      Except.ok (sequence.foldl
        (fun acc a => acc * build Real.cos Real.sin a (σ (symbolOf a))) 1) := by
  constructor
  · rw [euler_to_dcm, if_neg (by simp [hlen])]
    rw [dcmLoop_eq_ok Real.cos Real.sin _
      (fun p hp => hax p.1 (List.of_mem_zip hp).1), one_mul]
    rw [List.prod_eq_foldl, List.foldl_map]
  · rw [get_symbolic_dcm, lookup_angles_eq sequence hax]
    show symLoop Real.cos Real.sin 1
      (sequence.zip ((sequence.map symbolOf).map σ)) = _
    rw [List.map_map]
    simp only [Function.comp_def]
    rw [zip_self_map (fun a => σ (symbolOf a)) sequence]
    have hv : ∀ p ∈ sequence.map (fun a => (a, σ (symbolOf a))),
        p.1 = 1 ∨ p.1 = 2 ∨ p.1 = 3 := by
      intro p hp
      obtain ⟨a, ha, rfl⟩ := List.mem_map.mp hp
      exact hax a ha
    rw [symLoop_eq_ok Real.cos Real.sin _ hv, one_mul, List.map_map,
      List.prod_eq_foldl, List.foldl_map]
    simp only [Function.comp_def]

/-- Witness for claim C2 on the sequence 3,2,1. -/
theorem C2_witness :
    ([3, 2, 1] : List ℕ) ≠ [] ∧
    euler_to_dcm Real.cos Real.sin [3, 2, 1] [0.5, 0.25, 0.125] =
      Except.ok ((([3, 2, 1] : List ℕ).zip ([0.5, 0.25, 0.125] : List ℝ)).foldl
        (fun acc p => acc * build Real.cos Real.sin p.1 p.2) 1) ∧
    get_symbolic_dcm Real.cos Real.sin [3, 2, 1] sigmaDemo =
      Except.ok (([3, 2, 1] : List ℕ).foldl
        (fun acc a => acc * build Real.cos Real.sin a (sigmaDemo (symbolOf a))) 1) :=
  ⟨by decide,
    C2_sequence_composer [3, 2, 1] [0.5, 0.25, 0.125] sigmaDemo
      (by decide) (by decide) (by decide)⟩

/-- Claim C5: for every valid sequence, the composed DCM times its own
transpose is the 3×3 identity — exactly, in this real-arithmetic
idealisation, for both the numeric composer `euler_to_dcm` and the
symbolic composer `get_symbolic_dcm` (under every valuation of the
symbols, i.e. as a symbolic identity). -/
theorem C5_orthogonality (sequence : List ℕ) (angles : List ℝ)
    (σ : SymAngle → ℝ) (M N : Matrix (Fin 3) (Fin 3) ℝ)
    (hM : euler_to_dcm Real.cos Real.sin sequence angles = Except.ok M)
    (hN : get_symbolic_dcm Real.cos Real.sin sequence σ = Except.ok N) :
    M * M.transpose = 1 ∧ N * N.transpose = 1 := by
  constructor
  · rw [euler_to_dcm] at hM
    by_cases hlen : sequence.length ≠ angles.length
    · rw [if_pos hlen] at hM; cases hM
    · rw [if_neg hlen] at hM
      have hval := dcmLoop_ok_valid Real.cos Real.sin _ _ _ hM
      rw [dcmLoop_eq_ok Real.cos Real.sin _ hval, one_mul] at hM
      obtain rfl := Except.ok.inj hM
      refine prod_mul_transpose_prod _ ?_
      intro m hm
      obtain ⟨p, hp, rfl⟩ := List.mem_map.mp hm
      exact build_mul_transpose_real p.1 p.2
  · rw [get_symbolic_dcm] at hN
    cases hlk : lookup_angles sequence with
    | error e => rw [hlk] at hN; cases hN
    | ok syms =>
      rw [hlk] at hN
      change symLoop Real.cos Real.sin 1
        (sequence.zip (syms.map σ)) = Except.ok N at hN
      have hval := symLoop_ok_valid Real.cos Real.sin _ _ _ hN
      rw [symLoop_eq_ok Real.cos Real.sin _ hval, one_mul] at hN
      obtain rfl := Except.ok.inj hN
      refine prod_mul_transpose_prod _ ?_
      intro m hm
      obtain ⟨p, hp, rfl⟩ := List.mem_map.mp hm
      exact build_mul_transpose_real p.1 p.2

/-- Witness for claim C5 on the singleton sequence 1 with angle 0. -/
theorem C5_witness :
    euler_to_dcm Real.cos Real.sin [1] [0] =
      Except.ok ((1 : Matrix (Fin 3) (Fin 3) ℝ) *
        !![1, 0, 0; 0, Real.cos 0, -Real.sin 0; 0, Real.sin 0, Real.cos 0]) ∧
    get_symbolic_dcm Real.cos Real.sin [1] sigma0 =
      Except.ok ((1 : Matrix (Fin 3) (Fin 3) ℝ) *
        !![1, 0, 0; 0, Real.cos 0, -Real.sin 0; 0, Real.sin 0, Real.cos 0]) ∧
    ((1 : Matrix (Fin 3) (Fin 3) ℝ) *
        !![1, 0, 0; 0, Real.cos 0, -Real.sin 0; 0, Real.sin 0, Real.cos 0]) *
      ((1 : Matrix (Fin 3) (Fin 3) ℝ) *
        !![1, 0, 0; 0, Real.cos 0, -Real.sin 0; 0, Real.sin 0, Real.cos 0]).transpose
        = 1 :=
  ⟨rfl, rfl, (C5_orthogonality [1] [0] sigma0 _ _ rfl rfl).1⟩

/-- Claim C6: for every valid sequence, `invert` of the composed DCM —
implemented as the transpose, with no explicit matrix inversion —
equals the composer applied to the reversed sequence with each angle
negated. -/
theorem C6_inverse_via_transpose (sequence : List ℕ) (angles : List ℝ)
    (M : Matrix (Fin 3) (Fin 3) ℝ)
    (hM : euler_to_dcm Real.cos Real.sin sequence angles = Except.ok M) :
    euler_to_dcm Real.cos Real.sin sequence.reverse
        ((angles.map (fun t => -t)).reverse) = Except.ok (invert M) := by
  rw [euler_to_dcm] at hM
  by_cases hlen : sequence.length ≠ angles.length
  · rw [if_pos hlen] at hM; cases hM
  · rw [if_neg hlen] at hM
    push_neg at hlen
    have hval := dcmLoop_ok_valid Real.cos Real.sin _ _ _ hM
    rw [dcmLoop_eq_ok Real.cos Real.sin _ hval, one_mul] at hM
    obtain rfl := Except.ok.inj hM
    rw [euler_to_dcm, if_neg (by simp [hlen])]
    rw [zip_reverse_map (fun t => -t) sequence angles hlen]
    have hval2 : ∀ p ∈ ((sequence.zip angles).map
        (fun p => (p.1, -p.2))).reverse,
        p.1 = 1 ∨ p.1 = 2 ∨ p.1 = 3 := by
      intro p hp
      rw [List.mem_reverse] at hp
      obtain ⟨q, hq, rfl⟩ := List.mem_map.mp hp
      exact hval q hq
    rw [dcmLoop_eq_ok Real.cos Real.sin _ hval2, one_mul]
    congr 1
    rw [invert, Matrix.transpose_list_prod]
    congr 1
    rw [← List.map_reverse, ← List.map_reverse, List.map_map]
    have : (fun p => build Real.cos Real.sin p.1 p.2) ∘
        (fun p : ℕ × ℝ => (p.1, -p.2)) =
        fun p : ℕ × ℝ => build Real.cos Real.sin p.1 (-p.2) := rfl
    rw [this, map_build_neg_transpose, List.map_reverse]

/-- Witness for claim C6 on the singleton sequence 1 with angle 0. -/
theorem C6_witness :
    euler_to_dcm Real.cos Real.sin ([1] : List ℕ).reverse
        ((([0] : List ℝ).map (fun t => -t)).reverse) =
      Except.ok (invert ((1 : Matrix (Fin 3) (Fin 3) ℝ) *
        !![1, 0, 0; 0, Real.cos 0, -Real.sin 0; 0, Real.sin 0, Real.cos 0])) :=
  C6_inverse_via_transpose [1] [0] _ rfl

/-- Claim C7: for every sequence of axes in 1,2,3 paired with angles that
are all 0, the Sequence Composer returns exactly the 3×3 identity
matrix. -/
theorem C7_zero_angles_identity (sequence : List ℕ) (angles : List ℝ)
    (hlen : sequence.length = angles.length)
    (hax : ∀ a ∈ sequence, a = 1 ∨ a = 2 ∨ a = 3)
    (hzero : ∀ t ∈ angles, t = 0) :
    euler_to_dcm Real.cos Real.sin sequence angles = Except.ok 1 := by
  rw [euler_to_dcm, if_neg (by simp [hlen])]
  rw [dcmLoop_eq_ok Real.cos Real.sin _
    (fun p hp => hax p.1 (List.of_mem_zip hp).1), one_mul]
  congr 1
  refine List.prod_eq_one ?_
  intro m hm
  obtain ⟨p, hp, rfl⟩ := List.mem_map.mp hm
  rw [hzero p.2 (List.of_mem_zip hp).2, build_zero_real]

/-- Witness for claim C7 on the 3-1-3 sequence with zero angles. -/
theorem C7_witness :
    euler_to_dcm Real.cos Real.sin [3, 1, 3] [0, 0, 0] = Except.ok 1 :=
  C7_zero_angles_identity [3, 1, 3] [0, 0, 0] (by decide) (by decide)
    (by intro t ht; fin_cases ht <;> rfl)

/-- Claim C10: the symbolic pipeline `get_symbolic_dcm` takes no angle
inputs: it derives each angle symbol solely from the axis identifier via
the fixed mapping 1 ↦ phi, 2 ↦ theta, 3 ↦ psi, so every occurrence of
the same axis within a sequence receives the same symbolic angle; under
any valuation `σ` of the symbols it therefore coincides with the numeric
composer applied to the axis-derived angle list.  (The valuation is part
of the shallow embedding of SymPy symbols, not an input of the Python
function, whose only parameter is the sequence.) -/
theorem C10_fixed_symbol_mapping (sequence : List ℕ) (σ : SymAngle → ℝ)
    (hax : ∀ a ∈ sequence, a = 1 ∨ a = 2 ∨ a = 3) :
    angle_map 1 = Except.ok SymAngle.phi ∧
    angle_map 2 = Except.ok SymAngle.theta ∧
    angle_map 3 = Except.ok SymAngle.psi ∧
    lookup_angles sequence = Except.ok (sequence.map symbolOf) ∧
    get_symbolic_dcm Real.cos Real.sin sequence σ =
      euler_to_dcm Real.cos Real.sin sequence
        (sequence.map (fun a => σ (symbolOf a))) := by
  refine ⟨rfl, rfl, rfl, lookup_angles_eq sequence hax, ?_⟩
  rw [get_symbolic_dcm, lookup_angles_eq sequence hax]
  show symLoop Real.cos Real.sin 1
    (sequence.zip ((sequence.map symbolOf).map σ)) = _
  rw [List.map_map]
  simp only [Function.comp_def]
  rw [zip_self_map (fun a => σ (symbolOf a)) sequence]
  have hv : ∀ p ∈ sequence.map (fun a => (a, σ (symbolOf a))),
      p.1 = 1 ∨ p.1 = 2 ∨ p.1 = 3 := by
    intro p hp
    obtain ⟨a, ha, rfl⟩ := List.mem_map.mp hp
    exact hax a ha
  rw [symLoop_eq_ok Real.cos Real.sin _ hv]
  rw [euler_to_dcm, if_neg (by simp)]
  rw [zip_self_map (fun a => σ (symbolOf a)) sequence]
  rw [dcmLoop_eq_ok Real.cos Real.sin _ hv]

/-- Witness for claim C10 on the 3-1-3 sequence: both axis-3 rotations
receive the same symbol psi. -/
theorem C10_witness :
    angle_map 1 = Except.ok SymAngle.phi ∧
    angle_map 2 = Except.ok SymAngle.theta ∧
    angle_map 3 = Except.ok SymAngle.psi ∧
    lookup_angles [3, 1, 3] = Except.ok (([3, 1, 3] : List ℕ).map symbolOf) ∧
    get_symbolic_dcm Real.cos Real.sin [3, 1, 3] sigmaDemo =
      euler_to_dcm Real.cos Real.sin [3, 1, 3]
        (([3, 1, 3] : List ℕ).map (fun a => sigmaDemo (symbolOf a))) :=
  C10_fixed_symbol_mapping [3, 1, 3] sigmaDemo (by decide)

set_option maxHeartbeats 1600000 in
/-- Claim C8: composing the axis sequence [3,2,1] with angles 30, 15 and
10 degrees converted to radians yields, to 6 decimal places (each entry
within 5·10⁻⁷ of the quoted value, so it rounds to it), the matrix
[[0.836516, -0.453482, 0.307563], [0.482963, 0.875340, -0.022940],
[-0.258819, 0.167731, 0.951251]] — NumPy floating point idealised as
real arithmetic, as throughout this file. -/
theorem C8_concrete_scenario :
    ∃ M, euler_to_dcm Real.cos Real.sin [3, 2, 1]
        [30 * Real.pi / 180, 15 * Real.pi / 180, 10 * Real.pi / 180] =
          Except.ok M ∧
      |M 0 0 - 0.836516| < 5e-7 ∧ |M 0 1 - (-0.453482)| < 5e-7 ∧
      |M 0 2 - 0.307563| < 5e-7 ∧ |M 1 0 - 0.482963| < 5e-7 ∧
      |M 1 1 - 0.875340| < 5e-7 ∧ |M 1 2 - (-0.022940)| < 5e-7 ∧
      |M 2 0 - (-0.258819)| < 5e-7 ∧ |M 2 1 - 0.167731| < 5e-7 ∧
      |M 2 2 - 0.951251| < 5e-7 := by
  obtain ⟨h2l, h2u⟩ := sqrt_two_bounds
  obtain ⟨h3l, h3u⟩ := sqrt_three_bounds
  obtain ⟨hsl, hsu⟩ := sin_pi_div_eighteen_bounds
  obtain ⟨hcl, hcu⟩ := cos_pi_div_eighteen_bounds
  have hc6l : 0.8660254035 < Real.cos (Real.pi / 6) := by
    rw [Real.cos_pi_div_six]; linarith
  have hc6u : Real.cos (Real.pi / 6) < 0.8660254040 := by
    rw [Real.cos_pi_div_six]; linarith
  have hc12l : 0.9659258258 < Real.cos (Real.pi / 12) := by
    rw [cos_pi_div_twelve_eq]; nlinarith [h2l, h2u, h3l, h3u]
  have hc12u : Real.cos (Real.pi / 12) < 0.9659258269 := by
    rw [cos_pi_div_twelve_eq]; nlinarith [h2l, h2u, h3l, h3u]
  have hs12l : 0.2588190445 < Real.sin (Real.pi / 12) := by
    rw [sin_pi_div_twelve_eq]; nlinarith [h2l, h2u, h3l, h3u]
  have hs12u : Real.sin (Real.pi / 12) < 0.2588190457 := by
    rw [sin_pi_div_twelve_eq]; nlinarith [h2l, h2u, h3l, h3u]
  have hA : 0.2241438674 < Real.cos (Real.pi / 6) * Real.sin (Real.pi / 12) ∧
      Real.cos (Real.pi / 6) * Real.sin (Real.pi / 12) < 0.2241438687 := by
    constructor <;> nlinarith [hc6l, hc6u, hs12l, hs12u]
  have hT1 : 0.0389221739 <
      Real.cos (Real.pi / 6) * Real.sin (Real.pi / 12) * Real.sin (Real.pi / 18) ∧
      Real.cos (Real.pi / 6) * Real.sin (Real.pi / 12) * Real.sin (Real.pi / 18) <
        0.0389221745 := by
    constructor <;> nlinarith [hA.1, hA.2, hsl, hsu]
  have hT2 : 0.2207386183 <
      Real.cos (Real.pi / 6) * Real.sin (Real.pi / 12) * Real.cos (Real.pi / 18) ∧
      Real.cos (Real.pi / 6) * Real.sin (Real.pi / 12) * Real.cos (Real.pi / 18) <
        0.2207386198 := by
    constructor <;> nlinarith [hA.1, hA.2, hcl, hcu]
  have hP1 : 0.0449434552 <
      Real.sin (Real.pi / 12) * Real.sin (Real.pi / 18) ∧
      Real.sin (Real.pi / 12) * Real.sin (Real.pi / 18) < 0.0449434558 := by
    constructor <;> nlinarith [hs12l, hs12u, hsl, hsu]
  have hP2 : 0.8528685314 <
      Real.cos (Real.pi / 6) * Real.cos (Real.pi / 18) ∧
      Real.cos (Real.pi / 6) * Real.cos (Real.pi / 18) < 0.8528685324 := by
    constructor <;> nlinarith [hc6l, hc6u, hcl, hcu]
  have hP3 : 0.2548870015 <
      Real.sin (Real.pi / 12) * Real.cos (Real.pi / 18) ∧
      Real.sin (Real.pi / 12) * Real.cos (Real.pi / 18) < 0.2548870029 := by
    constructor <;> nlinarith [hs12l, hs12u, hcl, hcu]
  have hP4 : 0.1503837325 <
      Real.cos (Real.pi / 6) * Real.sin (Real.pi / 18) ∧
      Real.cos (Real.pi / 6) * Real.sin (Real.pi / 18) < 0.1503837336 := by
    constructor <;> nlinarith [hc6l, hc6u, hsl, hsu]
  have hP5 : 0.1677312587 <
      Real.cos (Real.pi / 12) * Real.sin (Real.pi / 18) ∧
      Real.cos (Real.pi / 12) * Real.sin (Real.pi / 18) < 0.1677312600 := by
    constructor <;> nlinarith [hc12l, hc12u, hsl, hsu]
  have hP6 : 0.9512512418 <
      Real.cos (Real.pi / 12) * Real.cos (Real.pi / 18) ∧
      Real.cos (Real.pi / 12) * Real.cos (Real.pi / 18) < 0.9512512434 := by
    constructor <;> nlinarith [hc12l, hc12u, hcl, hcu]
  have hM00 : 0.8365163030 <
      Real.cos (Real.pi / 6) * Real.cos (Real.pi / 12) ∧
      Real.cos (Real.pi / 6) * Real.cos (Real.pi / 12) < 0.8365163045 := by
    constructor <;> nlinarith [hc6l, hc6u, hc12l, hc12u]
  rw [show (30:ℝ) * Real.pi / 180 = Real.pi / 6 by ring,
    show (15:ℝ) * Real.pi / 180 = Real.pi / 12 by ring,
    show (10:ℝ) * Real.pi / 180 = Real.pi / 18 by ring]
  refine ⟨(1 : Matrix (Fin 3) (Fin 3) ℝ) *
      build Real.cos Real.sin 3 (Real.pi / 6) *
      build Real.cos Real.sin 2 (Real.pi / 12) *
      build Real.cos Real.sin 1 (Real.pi / 18),
    rfl, ?_, ?_, ?_, ?_, ?_, ?_, ?_, ?_, ?_⟩ <;>
    rw [c8_entries (Real.pi / 6) (Real.pi / 12) (Real.pi / 18)]
  · show |Real.cos (Real.pi / 6) * Real.cos (Real.pi / 12) - 0.836516| < 5e-7
    rw [abs_lt]
    constructor <;> linarith [hM00.1, hM00.2]
  · show |Real.cos (Real.pi / 6) * Real.sin (Real.pi / 12) *
        Real.sin (Real.pi / 18) -
      Real.sin (Real.pi / 6) * Real.cos (Real.pi / 18) - (-0.453482)| < 5e-7
    rw [Real.sin_pi_div_six, abs_lt]
    constructor <;> linarith [hT1.1, hT1.2, hcl, hcu]
  · show |Real.cos (Real.pi / 6) * Real.sin (Real.pi / 12) *
        Real.cos (Real.pi / 18) +
      Real.sin (Real.pi / 6) * Real.sin (Real.pi / 18) - 0.307563| < 5e-7
    rw [Real.sin_pi_div_six, abs_lt]
    constructor <;> linarith [hT2.1, hT2.2, hsl, hsu]
  · show |Real.sin (Real.pi / 6) * Real.cos (Real.pi / 12) - 0.482963| < 5e-7
    rw [Real.sin_pi_div_six, abs_lt]
    constructor <;> linarith [hc12l, hc12u]
  · show |Real.sin (Real.pi / 6) * Real.sin (Real.pi / 12) *
        Real.sin (Real.pi / 18) +
      Real.cos (Real.pi / 6) * Real.cos (Real.pi / 18) - 0.875340| < 5e-7
    rw [Real.sin_pi_div_six, abs_lt]
    constructor <;> linarith [hP1.1, hP1.2, hP2.1, hP2.2]
  · show |Real.sin (Real.pi / 6) * Real.sin (Real.pi / 12) *
        Real.cos (Real.pi / 18) -
      Real.cos (Real.pi / 6) * Real.sin (Real.pi / 18) - (-0.022940)| < 5e-7
    rw [Real.sin_pi_div_six, abs_lt]
    constructor <;> linarith [hP3.1, hP3.2, hP4.1, hP4.2]
  · show |-Real.sin (Real.pi / 12) - (-0.258819)| < 5e-7
    rw [abs_lt]
    constructor <;> linarith [hs12l, hs12u]
  · show |Real.cos (Real.pi / 12) * Real.sin (Real.pi / 18) - 0.167731| < 5e-7
    rw [abs_lt]
    constructor <;> linarith [hP5.1, hP5.2]
  · show |Real.cos (Real.pi / 12) * Real.cos (Real.pi / 18) - 0.951251| < 5e-7
    rw [abs_lt]
    constructor <;> linarith [hP6.1, hP6.2]

end RotationSeq
